import Mathlib

/-!
Verification of django-shinobi (`ninja/decorators.py`, `ninja/schema.py`,
`ninja/types.py`) against its natural-language specification.

Shallow embedding conventions:
* Python functions become Lean functions; raised exceptions become `Except`
  errors; Python `None` becomes `Option.none` or an explicit constructor.
* The ambient asyncio state ("is an event loop running in the calling
  context") is passed explicitly as a `Bool`.
* Host-framework values (Django managers, querysets, field files, template
  variables) are modelled by explicit constructors of `PyValue`.
-/

/-! ## Part 1: ninja/decorators.py -/

/-- Embedding of `asyncable` (decorators.py 64-135).  `sync` holds `__sync`
(the method given to the constructor), `async` holds `__async` (`None` until
`asynchronous` registers one).  Methods take the bound instance of type `ι`
together with the remaining arguments of type `α`, packed as a pair, mirroring
Python positional arguments `(self, *args)`. -/
structure asyncable (ι α β : Type) where
  sync : ι × α → β
  async : Option (ι × α → β)

/-- Embedding of `asyncable.asynchronous` (decorators.py 87-89): registers the
asynchronous implementation and returns the descriptor. -/
def asyncable.asynchronous (a : asyncable ι α β) (method : ι × α → β) : asyncable ι α β :=
  { a with async := some method }

/-- Embedding of `asyncable.__is_awaited` (decorators.py 91-96):
`asyncio.get_running_loop()` succeeds exactly when an event loop is running in
the calling context; the `try`/`except RuntimeError` maps success to `True`
and failure to `False`.  The ambient loop state is the explicit argument. -/
def asyncable.is_awaited (has_running_loop : Bool) : Bool :=
  has_running_loop

/-- Result of `asyncable.__get__` (decorators.py 98-126): either the
descriptor itself (accessed on the class, `instance is None`) or a bound
closure over the instance. -/
inductive GetResult (ι α β : Type) where
  | descr (a : asyncable ι α β)
  | closure (f : α → β)

/-- Embedding of `asyncable.__call__` (decorators.py 128-135).  A raised
`RuntimeError` is an `Except.error` carrying the message. -/
def asyncable.call (a : asyncable ι α β) (has_running_loop : Bool) (args : ι × α) :
    Except String β :=
  if asyncable.is_awaited has_running_loop then
    match a.async with
    | none =>
        Except.error
          "Attempting to call asyncable with await, but no asynchronous call has been defined"
    | some f => Except.ok (f args)
  else
    Except.ok (a.sync args)

/-- Embedding of `asyncable.__get__` (decorators.py 98-126).  With no
instance the descriptor returns itself; otherwise it dispatches on
`__is_awaited()`: in an asynchronous context it raises if `__async` is
missing and else returns `async_closure` (the async implementation bound to
the instance); in a synchronous context it returns `sync_closure` (the sync
implementation bound to the instance). -/
def asyncable.get (a : asyncable ι α β) (inst? : Option ι) (has_running_loop : Bool) :
    Except String (GetResult ι α β) :=
  match inst? with
  | none => Except.ok (GetResult.descr a)
  | some inst =>
    if asyncable.is_awaited has_running_loop then
      match a.async with
      | none =>
          Except.error
            "Attempting to call asyncable with await, but no asynchronous call has been defined"
      | some f => Except.ok (GetResult.closure (fun args => f (inst, args)))
    else
      Except.ok (GetResult.closure (fun args => a.sync (inst, args)))

/-- A sequence of invocations of the same `asyncable`: neither `__call__` nor
`__get__` assigns any attribute of the descriptor, so a call sequence is a
plain map over per-call contexts. -/
def run_calls (a : asyncable ι α β) (calls : List (Bool × (ι × α))) :
    List (Except String β) :=
  calls.map (fun c => a.call c.1 c.2)

/-- Embedding of `Operation` as consumed by decorators.py: a registered
handler entry exposing a mutable executable field `run`
(the class itself lives in ninja/operation.py, outside src/; only its `run`
field is used here, per the spec's "handler-registration object exposing a
mutable executable field"). -/
structure Operation (α : Type) where
  run : α

/-- Embedding of `_apply_decorators` (decorators.py 51-55): `for deco in
decorators: operation.run = deco(operation.run)`, i.e. a left fold that
rebinds `run`. -/
def _apply_decorators (decorators : List (α → α)) (operation : Operation α) :
    Operation α :=
  decorators.foldl (fun op deco => { op with run := deco op.run }) operation

/-- Modelled from the spec: `contribute_operation_callback` (ninja/utils.py,
not under src/) stores a callback on the not-yet-registered view function;
the host framework invokes every stored callback on the operation once
registration completes.  Here the callback store is an explicit list. -/
def contribute_operation_callback (callbacks : List (Operation α → Operation α))
    (callback : Operation α → Operation α) : List (Operation α → Operation α) :=
  callbacks ++ [callback]

/-- Modelled from the spec: the host framework runs the stored
registration-completion callbacks, in order, on the newly created operation. -/
def run_operation_callbacks (callbacks : List (Operation α → Operation α))
    (operation : Operation α) : Operation α :=
  callbacks.foldl (fun op cb => cb op) operation

/-- Embedding of `decorate_view` (decorators.py 35-48), branch where
`op_func` already has `_ninja_operation` (decorate_view above `@api.method`):
decorators are applied to the operation immediately. -/
def decorate_view_registered (decorators : List (α → α)) (operation : Operation α) :
    Operation α :=
  _apply_decorators decorators operation

/-- Embedding of `decorate_view` (decorators.py 35-48), branch where the
handler is not yet registered: `contribute_operation_callback(op_func,
functools-partial of _apply_decorators over decorators)` defers the same
application to registration time. -/
def decorate_view_unregistered (decorators : List (α → α))
    (callbacks : List (Operation α → Operation α)) :
    List (Operation α → Operation α) :=
  contribute_operation_callback callbacks (_apply_decorators decorators)

/-! ## Claim theorems C1-C3 -/

/-- C1: for a dual-mode (asyncable) method with both implementations
registered, every invocation executes exactly one of the two: a synchronous
caller (no running event loop detected) gets the synchronous implementation,
an asynchronous caller gets the asynchronous one — both through `__call__`
and through `__get__`-produced bound closures — and, the descriptor being
unchanged by invocations, each call's outcome is independent of any earlier
invocations of the same method. -/
theorem C1_dual_mode_dispatch (a : asyncable ι α β) (f : ι × α → β)
    (h : a.async = some f) :
    (∀ args, a.call true args = Except.ok (f args))
    ∧ (∀ args, a.call false args = Except.ok (a.sync args))
    ∧ (∀ inst, a.get (some inst) true
        = Except.ok (GetResult.closure (fun x => f (inst, x))))
    ∧ (∀ inst, a.get (some inst) false
        = Except.ok (GetResult.closure (fun x => a.sync (inst, x))))
    ∧ (∀ (prior : List (Bool × (ι × α))) (c : Bool × (ι × α)),
        run_calls a (prior ++ [c]) = run_calls a prior ++ [a.call c.1 c.2]) := by
  refine ⟨?_, ?_, ?_, ?_, ?_⟩
  · intro args; simp [asyncable.call, asyncable.is_awaited, h]
  · intro args; simp [asyncable.call, asyncable.is_awaited]
  · intro inst; simp [asyncable.get, asyncable.is_awaited, h]
  · intro inst; simp [asyncable.get, asyncable.is_awaited]
  · intro prior c; simp [run_calls]

/-- Witness for C1 on a concrete asyncable over `Nat`. -/
theorem C1_dual_mode_dispatch_witness :
    (asyncable.call ⟨fun p => p.2, some (fun p => p.2 + 1)⟩ true ((7 : Nat), (5 : Nat))
      = Except.ok 6)
    ∧ (asyncable.call ⟨fun p => p.2, some (fun p => p.2 + 1)⟩ false ((7 : Nat), (5 : Nat))
      = Except.ok 5) :=
  have h := C1_dual_mode_dispatch
    (ι := Nat) (α := Nat) (β := Nat)
    ⟨fun p => p.2, some (fun p => p.2 + 1)⟩ (fun p => p.2 + 1) rfl
  ⟨h.1 (7, 5), h.2.1 (7, 5)⟩

/-- C2: for a dual-mode method whose asynchronous implementation was never
registered, a call while an asynchronous context is detected raises a
RuntimeError whose message names the missing asynchronous mode (both through
`__call__` and `__get__`), while a synchronous-context call still executes
the synchronous implementation normally. -/
theorem C2_missing_async_error (a : asyncable ι α β) (h : a.async = none) :
    (∀ args, a.call true args
      = Except.error
          "Attempting to call asyncable with await, but no asynchronous call has been defined")
    ∧ (∃ pre post,
        "Attempting to call asyncable with await, but no asynchronous call has been defined"
          = pre ++ "asynchronous" ++ post)
    ∧ (∀ args, a.call false args = Except.ok (a.sync args))
    ∧ (∀ inst, a.get (some inst) true
      = Except.error
          "Attempting to call asyncable with await, but no asynchronous call has been defined")
    ∧ (∀ inst, a.get (some inst) false
        = Except.ok (GetResult.closure (fun x => a.sync (inst, x)))) := by
  refine ⟨?_, ?_, ?_, ?_, ?_⟩
  · intro args; simp [asyncable.call, asyncable.is_awaited, h]
  · exact ⟨"Attempting to call asyncable with await, but no ",
      " call has been defined", rfl⟩
  · intro args; simp [asyncable.call, asyncable.is_awaited]
  · intro inst; simp [asyncable.get, asyncable.is_awaited, h]
  · intro inst; simp [asyncable.get, asyncable.is_awaited]

/-- Witness for C2 on a concrete asyncable over `Nat` with no async
implementation. -/
theorem C2_missing_async_error_witness :
    (asyncable.call ⟨fun p => p.2, none⟩ true ((7 : Nat), (5 : Nat))
      = Except.error
          "Attempting to call asyncable with await, but no asynchronous call has been defined")
    ∧ (asyncable.call ⟨fun p => p.2, none⟩ false ((7 : Nat), (5 : Nat)) = Except.ok 5) :=
  have h := C2_missing_async_error
    (ι := Nat) (α := Nat) (β := Nat) ⟨fun p => p.2, none⟩ rfl
  ⟨h.1 (7, 5), h.2.2.1 (7, 5)⟩

/-- C3: decorators `[A, B]` compose with the first-listed decorator innermost
(`B(A(original_run))`), generally `_apply_decorators (d :: ds)` first wraps
`run` with `d` and then continues, and the immediate (already-registered)
path yields the same operation as the deferred (callback) path run at
registration completion. -/
theorem C3_decorator_composition :
    (∀ (A B : α → α) (op : Operation α),
      (_apply_decorators [A, B] op).run = B (A op.run))
    ∧ (∀ (d : α → α) (ds : List (α → α)) (op : Operation α),
      _apply_decorators (d :: ds) op = _apply_decorators ds ⟨d op.run⟩)
    ∧ (∀ (ds : List (α → α)) (op : Operation α),
      decorate_view_registered ds op
        = run_operation_callbacks (decorate_view_unregistered ds []) op) := by
  refine ⟨?_, ?_, ?_⟩
  · intro A B op; rfl
  · intro d ds op; rfl
  · intro ds op; rfl

/-! ## Part 2: type introspection (ninja/schema.py 303-364, ninja/types.py) -/

/-- Python `str.startswith`, modelled on the character list so that it
evaluates by kernel reduction. -/
def str_startsWith (s pre : String) : Bool :=
  pre.data.isPrefixOf s.data

/-- Model of the Python type annotations inspected by `has_type`
(schema.py 335-364).  Atoms are classes or typing special forms; subscripted
aliases carry their arguments.  `Optional[X]` is `unionOf X pyNoneType`
(typing normalizes `None` to `NoneType` when subscripting `Union`);
`pyNone` is the `None` object itself (as it can appear among decomposed
arguments), distinct from the class `pyNoneType`. -/
inductive Ty where
  | pyStr
  | pyInt
  | pyNoneType
  | pyList
  | listOf (el : Ty)
  | unionForm
  | unionOf (a b : Ty)
  | annotatedForm
  | annotatedOf (el m : Ty)
  | classVarForm
  | classVarOf (el : Ty)
  | pyNone
  | cls (collection_subclass : Bool)
deriving DecidableEq, Repr

/-- Python `typing.get_origin`: `list[X] ↦ list`, `Union[..] ↦ typing.Union`,
`Annotated[..] ↦ typing.Annotated`, `ClassVar[X] ↦ typing.ClassVar`, and
`None` for undecomposable annotations. -/
def Ty.get_origin : Ty → Option Ty
  | .listOf _ => some .pyList
  | .unionOf _ _ => some .unionForm
  | .annotatedOf _ _ => some .annotatedForm
  | .classVarOf _ => some .classVarForm
  | _ => none

/-- Python `typing.get_args`: the subscript arguments of an alias, `()` for
atoms. -/
def Ty.get_args : Ty → List Ty
  | .listOf el => [el]
  | .unionOf a b => [a, b]
  | .annotatedOf el m => [el, m]
  | .classVarOf el => [el]
  | _ => []

/-- `isinstance(type_alias, _AnnotatedAlias)` (schema.py 349). -/
def Ty.is_annotated_alias : Ty → Bool
  | .annotatedOf _ _ => true
  | _ => false

/-- Python `a is None` on a decomposed argument (schema.py 357). -/
def Ty.is_none_val : Ty → Bool
  | .pyNone => true
  | _ => false

/-- Python `inspect.isclass`: true for classes (`str`, `int`, `NoneType`,
`list`, arbitrary classes), false for typing special forms, subscripted
aliases and the `None` object. -/
def Ty.isclass : Ty → Bool
  | .pyStr | .pyInt | .pyNoneType | .pyList | .cls _ => true
  | _ => false

/-- Python `issubclass(t, Collection)` on the classes of the model: `str` and
`list` are Collections; `int` and `NoneType` are not; other classes carry an
explicit flag. -/
def Ty.collection_subclass_b : Ty → Bool
  | .pyStr => true
  | .pyList => true
  | .cls b => b
  | _ => false

/-- Embedding of `has_type` (schema.py 335-364), computed per `Ty`
constructor.  Each branch records the source path it takes:
`get_origin` is checked first through `f`; an empty `get_args` means `f` is
applied to the annotation itself; an `_AnnotatedAlias` recurses into its
first argument only; argument lists of length greater than one are first
filtered for the `None` object, and the remaining arguments are searched
with `any`. -/
def has_type (ta : Ty) (f : Ty → Bool) : Bool :=
  match ta with
  | .listOf el =>
      -- get_origin = list; get_args = (el,): one argument, so no filter
      if f .pyList then true else has_type el f
  | .unionOf a b =>
      -- get_origin = typing.Union; get_args = (a, b): len > 1, so the
      -- None-object filter runs before `any(has_type(i, f) for i in args)`
      if f .unionForm then true
      else (!a.is_none_val && has_type a f) || (!b.is_none_val && has_type b f)
  | .annotatedOf el _ =>
      -- get_origin = typing.Annotated; _AnnotatedAlias: only args[0] resolved
      if f .annotatedForm then true else has_type el f
  | .classVarOf el =>
      -- get_origin = typing.ClassVar; get_args = (el,)
      if f .classVarForm then true else has_type el f
  | t =>
      -- get_origin = None and get_args = (): check the annotation itself
      f t

/-- Validation lemma: `has_type` as defined above agrees, on every `Ty`, with
the source text's generic formulation via `get_origin` / `get_args` /
`_AnnotatedAlias` / the `None` filter. -/
theorem has_type_eq_source_form (ta : Ty) (f : Ty → Bool) :
    has_type ta f =
      (if (Ty.get_origin ta).elim false f then true
       else
         match Ty.get_args ta with
         | [] => f ta
         | a0 :: rest =>
           if ta.is_annotated_alias then has_type a0 f
           else
             (if (a0 :: rest).length > 1
              then (a0 :: rest).filter (fun a => !a.is_none_val)
              else a0 :: rest).any (fun a => has_type a f)) := by
  cases ta <;>
    simp [has_type, Ty.get_origin, Ty.get_args, Ty.is_annotated_alias]

/-- Embedding of `is_collection_type` (schema.py 303-318): the wrapper
returns `False` for non-classes, `False` for `str` (`t in (str,)`), and
`issubclass(t, Collection)` for other classes; `has_type` searches the
annotation with it. -/
def is_collection_type (ta : Ty) : Bool :=
  has_type ta (fun t =>
    if t.isclass then
      match t with
      | .pyStr => false
      | _ => t.collection_subclass_b
    else false)

/-- Embedding of `is_filefield_type` (schema.py 321-325) combined with
`FileFieldType = str` (ninja/types.py 21): the wrapper is `t is str`. -/
def is_filefield_type (ta : Ty) : Bool :=
  has_type ta (fun t =>
    match t with
    | .pyStr => true
    | _ => false)

/-- Embedding of `is_classvar_type` (schema.py 328-332): the wrapper is
`t is ClassVar` (the bare special form, which `get_origin` also returns for
`ClassVar[X]`). -/
def is_classvar_type (ta : Ty) : Bool :=
  has_type ta (fun t =>
    match t with
    | .classVarForm => true
    | _ => false)

/-- The two field validators that `ResolverMetaclass.__new__` can install
per declared field (schema.py 199-211): `_manager_to_queryset` for
collection-typed fields and `_validate_file` for file-field-typed ones. -/
inductive VKind where
  | manager_validator
  | file_validator
deriving DecidableEq, Repr

/-- One iteration of the annotation-rewriting loop of
`ResolverMetaclass.__new__` (schema.py 199-211): skip names starting with an
underscore and ClassVar annotations; install the manager validator for
collection types and the file validator for file-field types. -/
def install_step (acc : List (String × VKind)) (p : String × Ty) :
    List (String × VKind) :=
  if str_startsWith p.1 "_" || is_classvar_type p.2 then acc
  else
    let acc1 := if is_collection_type p.2 then acc ++ [(p.1, VKind.manager_validator)] else acc
    if is_filefield_type p.2 then acc1 ++ [(p.1, VKind.file_validator)] else acc1

/-- The full annotation-rewriting loop of `ResolverMetaclass.__new__`
(schema.py 199-211) over a class namespace's `__annotations__`. -/
def install_validators (anns : List (String × Ty)) : List (String × VKind) :=
  anns.foldl install_step []


theorem install_step_preserve {acc : List (String × VKind)} {p : String × Ty}
    {x : String × VKind} (h : x ∈ acc) : x ∈ install_step acc p := by
  by_cases hskip : (str_startsWith p.1 "_" || is_classvar_type p.2) = true
  · simpa [install_step, hskip] using h
  · by_cases hcol : is_collection_type p.2 = true <;>
      by_cases hf : is_filefield_type p.2 = true <;>
        simp [install_step, hskip, hcol, hf, h]

theorem foldl_install_preserve {anns : List (String × Ty)}
    {acc : List (String × VKind)} {x : String × VKind} (h : x ∈ acc) :
    x ∈ anns.foldl install_step acc := by
  induction anns generalizing acc with
  | nil => exact h
  | cons p rest ih => exact ih (install_step_preserve h)

theorem install_validators_complete_manager :
    ∀ (anns : List (String × Ty)) (acc : List (String × VKind)) (n : String) (t : Ty),
      (n, t) ∈ anns → str_startsWith n "_" = false → is_classvar_type t = false →
      is_collection_type t = true →
      (n, VKind.manager_validator) ∈ anns.foldl install_step acc := by
  intro anns
  induction anns with
  | nil => intro acc n t hmem; exact absurd hmem (List.not_mem_nil _)
  | cons p rest ih =>
    intro acc n t hmem hu hc hcol
    rw [List.foldl_cons]
    rcases List.mem_cons.mp hmem with h | h
    · refine foldl_install_preserve ?_
      subst h
      by_cases hf : is_filefield_type t = true <;>
        simp [install_step, hu, hc, hcol, hf]
    · exact ih _ n t h hu hc hcol

theorem install_validators_complete_file :
    ∀ (anns : List (String × Ty)) (acc : List (String × VKind)) (n : String) (t : Ty),
      (n, t) ∈ anns → str_startsWith n "_" = false → is_classvar_type t = false →
      is_filefield_type t = true →
      (n, VKind.file_validator) ∈ anns.foldl install_step acc := by
  intro anns
  induction anns with
  | nil => intro acc n t hmem; exact absurd hmem (List.not_mem_nil _)
  | cons p rest ih =>
    intro acc n t hmem hu hc hf
    rw [List.foldl_cons]
    rcases List.mem_cons.mp hmem with h | h
    · refine foldl_install_preserve ?_
      subst h
      by_cases hcol : is_collection_type t = true <;>
        simp [install_step, hu, hc, hcol, hf]
    · exact ih _ n t h hu hc hf

theorem install_step_sound {acc : List (String × VKind)} {p : String × Ty}
    {x : String × VKind} (h : x ∈ install_step acc p) :
    x ∈ acc ∨
      (x.1 = p.1 ∧ str_startsWith p.1 "_" = false ∧ is_classvar_type p.2 = false ∧
        ((x.2 = VKind.manager_validator ∧ is_collection_type p.2 = true) ∨
         (x.2 = VKind.file_validator ∧ is_filefield_type p.2 = true))) := by
  by_cases hu : str_startsWith p.1 "_" = true
  · rw [install_step, if_pos (by simp [hu])] at h; exact Or.inl h
  · by_cases hc : is_classvar_type p.2 = true
    · rw [install_step, if_pos (by simp [hc])] at h; exact Or.inl h
    · replace hu : str_startsWith p.1 "_" = false := by simpa using hu
      replace hc : is_classvar_type p.2 = false := by simpa using hc
      by_cases hcol : is_collection_type p.2 = true <;>
        by_cases hf : is_filefield_type p.2 = true <;>
          simp only [install_step, hu, hc, hcol, hf, Bool.or_self, Bool.or_false,
            Bool.false_or, if_true, if_false, Bool.false_eq_true,
            List.mem_append, List.mem_singleton] at h
      · rcases h with (h | h) | h
        · exact Or.inl h
        · exact Or.inr ⟨by rw [h], hu, hc, Or.inl ⟨by rw [h], hcol⟩⟩
        · exact Or.inr ⟨by rw [h], hu, hc, Or.inr ⟨by rw [h], hf⟩⟩
      · rcases h with h | h
        · exact Or.inl h
        · exact Or.inr ⟨by rw [h], hu, hc, Or.inl ⟨by rw [h], hcol⟩⟩
      · rcases h with h | h
        · exact Or.inl h
        · exact Or.inr ⟨by rw [h], hu, hc, Or.inr ⟨by rw [h], hf⟩⟩
      · exact Or.inl h

theorem install_validators_sound :
    ∀ (anns : List (String × Ty)) (acc : List (String × VKind)) (x : String × VKind),
      x ∈ anns.foldl install_step acc →
      x ∈ acc ∨
        ∃ t, (x.1, t) ∈ anns ∧ str_startsWith x.1 "_" = false ∧
          is_classvar_type t = false ∧
          ((x.2 = VKind.manager_validator ∧ is_collection_type t = true) ∨
           (x.2 = VKind.file_validator ∧ is_filefield_type t = true)) := by
  intro anns
  induction anns with
  | nil => intro acc x h; exact Or.inl h
  | cons p rest ih =>
    intro acc x h
    rw [List.foldl_cons] at h
    rcases ih _ x h with h2 | ⟨t, hmem, hrest⟩
    · rcases install_step_sound h2 with h3 | ⟨he, hu, hc, hk⟩
      · exact Or.inl h3
      · exact Or.inr ⟨p.2, by rw [he]; exact List.mem_cons_self _ _, he ▸ hu, hc, hk⟩
    · exact Or.inr ⟨t, List.mem_cons_of_mem _ hmem, hrest⟩

/-! ## Part 3: runtime values, DjangoGetter and Resolver (ninja/schema.py 65-167) -/

/-- Model of the Python runtime values the schema layer manipulates.
Host-framework types get explicit constructors: a `Manager` carries the
records its `.all()` realizes, a `QuerySet` carries the records it lazily
represents, a zero-argument callable carries its return value, a `FieldFile`
carries its public URL or nothing when no file is set (a `FieldFile` with no
file is falsy).  Dictionaries and attribute-bearing objects carry their
entries as association lists. -/
inductive PyValue where
  | noneV
  | strV (s : String)
  | intV (n : Int)
  | listV (xs : List PyValue)
  | dictV (entries : List (String × PyValue))
  | objV (attrs : List (String × PyValue))
  | manager (records : List PyValue)
  | queryset (records : List PyValue)
  | callableV (ret : PyValue)
  | fieldFile (url : Option String)

/-- Python `isinstance(x, dict)`. -/
def PyValue.isDict : PyValue → Bool
  | .dictV _ => true
  | _ => false

/-- Python `key in d` / `d[key]` on a dict, as one partial lookup. -/
def PyValue.dictGet : PyValue → String → Option PyValue
  | .dictV es, key => (es.find? (fun p => p.1 == key)).map (·.2)
  | _, _ => none

/-- Python `getattr(obj, key)` on the attribute-bearing objects of the
model; anything else has no attributes here and raises `AttributeError`
(modelled as `none`). -/
def PyValue.getattrDirect : PyValue → String → Option PyValue
  | .objV attrs, key => (attrs.find? (fun p => p.1 == key)).map (·.2)
  | _, _ => none

/-- Embedding of `DjangoGetter._convert_result` (schema.py 104-119), with
the source's `isinstance` checks taken in order: a `Manager` becomes
`list(result.all())`; a `QuerySet` is returned unmodified; a callable is
invoked with no arguments; a `FieldFile` yields `None` when falsy and
`result.url` otherwise; every other value passes through unchanged. -/
def _convert_result (result : PyValue) : PyValue :=
  match result with
  | .manager records => .listV records
  | .queryset records => .queryset records
  | .callableV ret => ret
  | .fieldFile none => .noneV
  | .fieldFile (some url) => .strV url
  | v => v

/-- Values hit by one of the four coercion branches of `_convert_result`. -/
def PyValue.is_coerced_kind : PyValue → Bool
  | .manager _ | .queryset _ | .callableV _ | .fieldFile _ => true
  | _ => false

/-- One lookup step of `django.template.Variable._resolve_lookup` (external
host-framework behavior, per the spec's "dotted-path resolution ...
traversing nested attributes"): each dotted part is looked up as a
dictionary key or as an attribute of the current value. -/
def variable_lookup_part (part : String) : PyValue → Option PyValue
  | .dictV es => (es.find? (fun p => p.1 == part)).map (·.2)
  | .objV attrs => (attrs.find? (fun p => p.1 == part)).map (·.2)
  | _ => none

/-- Traversal of the dotted parts; a failed part raises
`VariableDoesNotExist` (modelled as `none`). -/
def variable_resolve_parts : List String → PyValue → Option PyValue
  | [], v => some v
  | p :: ps, v =>
    match variable_lookup_part p v with
    | some v2 => variable_resolve_parts ps v2
    | none => none

/-- Splitting a string on the dot separator, modelled on the character list
so that it evaluates by kernel reduction; agrees with Python
`key.split(".")` on the keys at issue. -/
def split_dots_aux : List Char → List Char → List String
  | [], acc => [⟨acc.reverse⟩]
  | c :: rest, acc =>
    if c = '.' then ⟨acc.reverse⟩ :: split_dots_aux rest []
    else split_dots_aux rest (c :: acc)

/-- Python `key.split(".")`. -/
def split_dots (s : String) : List String :=
  split_dots_aux s.data []

/-- Model of `django.template.Variable(key).resolve(obj)` as used at
schema.py 91: the key is split on `"."` and traversed part by part. -/
def Variable_resolve (key : String) (obj : PyValue) : Option PyValue :=
  variable_resolve_parts (split_dots key) obj

/-- Exceptions surfaced by the adapter lookup path. -/
inductive PyError where
  | attributeError (key : String)
  | notImplementedError (msg : String)

/-- The underlying function wrapped by `Resolver` (schema.py 125-151):
`has_kwargs` and `arg_names` model `ninja.signature.utils.has_kwargs` /
`get_args_names` on it, and `call` takes the backing object plus the
optional `context` keyword argument. -/
structure RawFunc where
  has_kwargs : Bool
  arg_names : List String
  call : PyValue → Option PyValue → PyValue

/-- A value found in a class namespace by the metaclass resolver scan:
a `staticmethod`, a plain callable, or anything else. -/
inductive NsVal where
  | static_method (f : RawFunc)
  | function (f : RawFunc)
  | other

/-- The `callable(resolve_func) or isinstance(resolve_func, staticmethod)`
guard of `ResolverMetaclass.__new__` (schema.py 185-190). -/
def NsVal.is_resolver_callable : NsVal → Bool
  | .other => false
  | _ => true

/-- Embedding of the `Resolver` state (schema.py 125-140): `static` records
`isinstance(func, staticmethod)`, `func` the unwrapped `__func__`, and
`takes_context` the `__init__` computation
`has_kwargs(func) or "context" in get_args_names(func)`. -/
structure Resolver where
  static : Bool
  func : RawFunc
  takes_context : Bool

/-- Embedding of `Resolver.__init__` (schema.py 131-140). The `.other` case
never reaches `Resolver(...)`: the metaclass guards on callability first. -/
def Resolver.init : NsVal → Resolver
  | .static_method f =>
      { static := true, func := f,
        takes_context := f.has_kwargs || f.arg_names.contains "context" }
  | .function f =>
      { static := false, func := f,
        takes_context := f.has_kwargs || f.arg_names.contains "context" }
  | .other =>
      { static := false, func := ⟨false, [], fun _ _ => PyValue.noneV⟩,
        takes_context := false }

/-- Embedding of `DjangoGetter` (schema.py 65-71): the backing object, the
schema class's `_ninja_resolvers` mapping, and the context value. -/
structure DjangoGetter where
  obj : PyValue
  schema_resolvers : String → Option Resolver
  context : PyValue

/-- Embedding of `Resolver.__call__` (schema.py 142-151): the `context`
keyword argument is added exactly when `_takes_context`; a non-static
resolver raises `NotImplementedError`. -/
def Resolver.call (r : Resolver) (getter : DjangoGetter) : Except PyError PyValue :=
  let kwargs_context : Option PyValue :=
    if r.takes_context then some getter.context else none
  if r.static then Except.ok (r.func.call getter.obj kwargs_context)
  else Except.error (PyError.notImplementedError "Non static resolves are not supported yet")

/-- Embedding of `DjangoGetter.__getattr__` (schema.py 73-96): a registered
resolver is consulted first; otherwise a dict backing value is looked up by
key (`AttributeError(key)` if absent); otherwise direct `getattr` is tried,
then `Variable(key).resolve(obj)`, and if both fail `AttributeError(key)` is
raised.  Whatever value is obtained is passed through `_convert_result`. -/
def DjangoGetter.getattr (g : DjangoGetter) (key : String) : Except PyError PyValue :=
  let value : Except PyError PyValue :=
    match g.schema_resolvers key with
    | some resolver => Resolver.call resolver g
    | none =>
      if g.obj.isDict then
        match g.obj.dictGet key with
        | some v => Except.ok v
        | none => Except.error (PyError.attributeError key)
      else
        match g.obj.getattrDirect key with
        | some v => Except.ok v
        | none =>
          match Variable_resolve key g.obj with
          | some v => Except.ok v
          | none => Except.error (PyError.attributeError key)
  value.map _convert_result

/-! ## Part 4: ResolverMetaclass resolver mapping (ninja/schema.py 170-215) -/

/-- A `_ninja_resolvers` mapping, observed only through `.get` (schema.py
77), hence modelled as a function to `Option`. -/
abbrev Resolvers := String → Option Resolver

/-- The empty dict `resolvers = {}` (schema.py 176). -/
def empty_resolvers : Resolvers := fun _ => none

/-- Python `dict.update`: entries of `add` win over entries of `m`. -/
def dict_update (m add : Resolvers) : Resolvers :=
  fun k => match add k with
    | some v => some v
    | none => m k

/-- Python `d[k] = v` on the resolvers dict. -/
def dict_insert (m : Resolvers) (k : String) (v : Resolver) : Resolvers :=
  fun k2 => if k2 == k then some v else m k2

/-- One step of the namespace scan of `ResolverMetaclass.__new__`
(schema.py 182-191): attributes not starting with `resolve_` are skipped,
non-callables are skipped, and `resolvers[attr[8:]] = Resolver(resolve_func)`
otherwise. -/
def ns_scan_step (acc : Resolvers) (p : String × NsVal) : Resolvers :=
  if !str_startsWith p.1 "resolve_" then acc
  else if !p.2.is_resolver_callable then acc
  else dict_insert acc (p.1.drop 8) (Resolver.init p.2)

/-- Embedding of the resolver-collection part of `ResolverMetaclass.__new__`
(schema.py 175-191): start from `{}`, fold the bases in reverse updating with
each base's `_ninja_resolvers` when present (updating with an empty mapping
is the identity, so the source's truthiness guard `if base_resolvers:` only
skips no-ops), then scan the class namespace in order. -/
def compute_resolvers (bases : List (Option Resolvers))
    (namespace_items : List (String × NsVal)) : Resolvers :=
  let resolvers := bases.reverse.foldl
    (fun acc base =>
      match base with
      | some base_resolvers => dict_update acc base_resolvers
      | none => acc)
    empty_resolvers
  namespace_items.foldl ns_scan_step resolvers

/-- Reference function for C9: the resolver for `fname` contributed by the
listed bases, earliest-listed base first. -/
def first_base_resolver (bases : List (Option Resolvers)) (fname : String) :
    Option Resolver :=
  match bases with
  | [] => none
  | some br :: rest =>
    match br fname with
    | some r => some r
    | none => first_base_resolver rest fname
  | none :: rest => first_base_resolver rest fname

/-- Reference function for C9: the last namespace attribute `resolve_<f>`
(callable) whose target field is `fname`, mirroring dict-assignment
semantics of the namespace scan. -/
def ns_resolver_entry (namespace_items : List (String × NsVal)) (fname : String) :
    Option NsVal :=
  match namespace_items with
  | [] => none
  | p :: rest =>
    match ns_resolver_entry rest fname with
    | some v => some v
    | none =>
      if str_startsWith p.1 "resolve_" && p.2.is_resolver_callable && (p.1.drop 8 == fname)
      then some p.2 else none

/-- Embedding of `_manager_to_queryset` (schema.py 218-222): a `Manager`
evaluates to `value.all()` (the queryset over its records); anything else is
returned unchanged. -/
def _manager_to_queryset : PyValue → PyValue
  | .manager records => .queryset records
  | value => value

/-- Embedding of `_validate_file` (schema.py 225-230): a falsy `FieldFile`
becomes `None`, one with a file becomes its `url`; anything else is returned
unchanged. -/
def _validate_file : PyValue → PyValue
  | .fieldFile none => .noneV
  | .fieldFile (some url) => .strV url
  | value => value

/-- Modelled from the spec: the validation library's structural validation of
a declared list-typed field materializes an iterable backing value (list or
queryset) into a concrete ordered list, per "materializes as a concrete
ordered list equal to calling its realization method". -/
def structural_list_validate : PyValue → Option (List PyValue)
  | .listV xs => some xs
  | .queryset xs => some xs
  | _ => none

theorem bases_fold_lookup (bases : List (Option Resolvers)) :
    ∀ (acc : Resolvers) (k : String),
      (bases.reverse.foldl
        (fun acc base =>
          match base with
          | some base_resolvers => dict_update acc base_resolvers
          | none => acc)
        acc) k
      = (match first_base_resolver bases k with
         | some r => some r
         | none => acc k) := by
  induction bases with
  | nil => intro acc k; rfl
  | cons b bs ih =>
    intro acc k
    rw [List.reverse_cons, List.foldl_append]
    cases b with
    | none => simp only [List.foldl_cons, List.foldl_nil, ih acc k, first_base_resolver]
    | some br =>
      simp only [List.foldl_cons, List.foldl_nil, first_base_resolver, dict_update, ih acc k]
      cases br k <;> simp

theorem ns_fold_lookup (items : List (String × NsVal)) :
    ∀ (acc : Resolvers) (k : String),
      (items.foldl ns_scan_step acc) k
      = (match ns_resolver_entry items k with
         | some v => some (Resolver.init v)
         | none => acc k) := by
  induction items with
  | nil => intro acc k; rfl
  | cons p rest ih =>
    intro acc k
    rw [List.foldl_cons, ih]
    cases hrest : ns_resolver_entry rest k with
    | some v => simp [ns_resolver_entry, hrest]
    | none =>
      simp only [ns_resolver_entry, hrest]
      by_cases hs : str_startsWith p.1 "resolve_" = true
      · by_cases hc : p.2.is_resolver_callable = true
        · by_cases hk : k = p.1.drop 8
          · simp [ns_scan_step, dict_insert, hs, hc, hk]
          · have hk2 : (p.1.drop 8 == k) = false := by
              simp [BEq.beq]
              exact fun h => absurd h.symm hk
            have hk3 : (k == p.1.drop 8) = false := by
              simp [BEq.beq]
              exact hk
            simp [ns_scan_step, dict_insert, hs, hc, hk2, hk3]
        · have hc2 : p.2.is_resolver_callable = false := by simpa using hc
          simp [ns_scan_step, hs, hc2]
      · have hs2 : str_startsWith p.1 "resolve_" = false := by simpa using hs
        simp [ns_scan_step, hs2]

/-! ## Claim theorems C4-C6, C9, C10 -/

/-- C4: lookup on the backing-object adapter proceeds in priority order:
a registered resolver is invoked first (its result also passing through
`_convert_result`, and the context value is passed exactly when the resolver
declares a `context` parameter or accepts keyword arguments); otherwise a
dict backing value is looked up by key, raising `AttributeError(key)` when
absent; otherwise direct attribute access is tried, then dotted-path
resolution, and if both fail a uniform `AttributeError` for the requested
name is raised. -/
theorem C4_adapter_lookup_priority (res : String → Option Resolver)
    (objv ctx : PyValue) (key : String) :
    (∀ r, res key = some r →
      DjangoGetter.getattr ⟨objv, res, ctx⟩ key
        = (Resolver.call r ⟨objv, res, ctx⟩).map _convert_result)
    ∧ (∀ r : Resolver, r.static = true →
      Resolver.call r ⟨objv, res, ctx⟩
        = Except.ok (r.func.call objv (if r.takes_context then some ctx else none)))
    ∧ (∀ f : RawFunc, (Resolver.init (NsVal.static_method f)).takes_context
        = (f.has_kwargs || f.arg_names.contains "context"))
    ∧ (res key = none → objv.isDict = true →
        ((∀ v, objv.dictGet key = some v →
          DjangoGetter.getattr ⟨objv, res, ctx⟩ key = Except.ok (_convert_result v))
        ∧ (objv.dictGet key = none →
          DjangoGetter.getattr ⟨objv, res, ctx⟩ key
            = Except.error (PyError.attributeError key))))
    ∧ (res key = none → objv.isDict = false →
        ((∀ v, objv.getattrDirect key = some v →
          DjangoGetter.getattr ⟨objv, res, ctx⟩ key = Except.ok (_convert_result v))
        ∧ (objv.getattrDirect key = none →
            ((∀ v, Variable_resolve key objv = some v →
              DjangoGetter.getattr ⟨objv, res, ctx⟩ key = Except.ok (_convert_result v))
            ∧ (Variable_resolve key objv = none →
              DjangoGetter.getattr ⟨objv, res, ctx⟩ key
                = Except.error (PyError.attributeError key)))))) := by
  refine ⟨?_, ?_, ?_, ?_, ?_⟩
  · intro r h; simp [DjangoGetter.getattr, h]
  · intro r h; simp [Resolver.call, h]
  · intro f; rfl
  · intro hres hdict
    constructor
    · intro v hv; simp [DjangoGetter.getattr, hres, hdict, hv, Except.map]
    · intro hv; simp [DjangoGetter.getattr, hres, hdict, hv, Except.map]
  · intro hres hdict
    refine ⟨?_, ?_⟩
    · intro v hv; simp [DjangoGetter.getattr, hres, hdict, hv, Except.map]
    · intro hd
      refine ⟨?_, ?_⟩
      · intro v hv; simp [DjangoGetter.getattr, hres, hdict, hd, hv, Except.map]
      · intro hv; simp [DjangoGetter.getattr, hres, hdict, hd, hv, Except.map]

/-- Witness for C4: key lookup on a concrete dict-backed adapter with no
resolver registered, and dotted-path fallback on an object-backed adapter. -/
theorem C4_adapter_lookup_priority_witness :
    (DjangoGetter.getattr ⟨PyValue.dictV [("x", PyValue.strV "v")], fun _ => none,
        PyValue.noneV⟩ "x" = Except.ok (PyValue.strV "v"))
    ∧ (DjangoGetter.getattr
        ⟨PyValue.objV [("boss", PyValue.objV [("first_name", PyValue.strV "Sam")])],
          fun _ => none, PyValue.noneV⟩ "boss.first_name"
        = Except.ok (PyValue.strV "Sam")) :=
  have h1 := (C4_adapter_lookup_priority (fun _ => none)
    (PyValue.dictV [("x", PyValue.strV "v")]) PyValue.noneV "x").2.2.2.1
    rfl rfl
  have h2 := (C4_adapter_lookup_priority (fun _ => none)
    (PyValue.objV [("boss", PyValue.objV [("first_name", PyValue.strV "Sam")])])
    PyValue.noneV "boss.first_name").2.2.2.2 rfl rfl
  ⟨h1.1 (PyValue.strV "v") rfl,
   (h2.2 rfl).1 (PyValue.strV "Sam") rfl⟩

/-- C5: post-lookup coercion by `_convert_result`: a `Manager` becomes the
full realized list of its records, a `QuerySet` is returned unmodified, a
callable is invoked with no arguments and its return value used, a
`FieldFile` yields its URL when set and `None` when unset, and every other
value passes through unchanged. -/
theorem C5_convert_result_coercions :
    (∀ records, _convert_result (PyValue.manager records) = PyValue.listV records)
    ∧ (∀ records, _convert_result (PyValue.queryset records) = PyValue.queryset records)
    ∧ (∀ ret, _convert_result (PyValue.callableV ret) = ret)
    ∧ (∀ url, _convert_result (PyValue.fieldFile (some url)) = PyValue.strV url)
    ∧ (_convert_result (PyValue.fieldFile none) = PyValue.noneV)
    ∧ (∀ v, v.is_coerced_kind = false → _convert_result v = v) := by
  refine ⟨fun _ => rfl, fun _ => rfl, fun _ => rfl, fun _ => rfl, rfl, ?_⟩
  intro v h
  cases v <;> first
    | rfl
    | simp [PyValue.is_coerced_kind] at h

/-- Witness for C5: a non-coerced value passes through unchanged. -/
theorem C5_convert_result_coercions_witness :
    _convert_result (PyValue.strV "plain") = PyValue.strV "plain" :=
  C5_convert_result_coercions.2.2.2.2.2 (PyValue.strV "plain") rfl

/-- C6: at class-definition time the metaclass installs the before-mode
manager validator on every declared field whose (wrapper-unwrapped) type is
collection-like, and the file validator on every field whose type is
file-field-like; for a collection-typed field backed by a `Manager`, the
before-validator evaluates it via `.all()` and the structural pass
materializes exactly the manager's records, while a `QuerySet` backing value
passes through the before-validator unchanged (not eagerly materialized). -/
theorem C6_field_validator_installation :
    (∀ (anns : List (String × Ty)) (n : String) (t : Ty),
      (n, t) ∈ anns → str_startsWith n "_" = false → is_classvar_type t = false →
      is_collection_type t = true →
      (n, VKind.manager_validator) ∈ install_validators anns)
    ∧ (∀ (anns : List (String × Ty)) (n : String) (t : Ty),
      (n, t) ∈ anns → str_startsWith n "_" = false → is_classvar_type t = false →
      is_filefield_type t = true →
      (n, VKind.file_validator) ∈ install_validators anns)
    ∧ (∀ records, _manager_to_queryset (PyValue.manager records)
        = PyValue.queryset records)
    ∧ (∀ records,
        structural_list_validate (_manager_to_queryset (PyValue.manager records))
          = some records)
    ∧ (∀ records, _manager_to_queryset (PyValue.queryset records)
        = PyValue.queryset records) := by
  refine ⟨?_, ?_, fun _ => rfl, fun _ => rfl, fun _ => rfl⟩
  · intro anns n t hmem hu hc hcol
    exact install_validators_complete_manager anns [] n t hmem hu hc hcol
  · intro anns n t hmem hu hc hf
    exact install_validators_complete_file anns [] n t hmem hu hc hf

/-- Witness for C6: a `List[SomeCollectionClass]`-typed field gets the
manager validator, and a `str`-typed (file-field-typed) field gets the file
validator. -/
theorem C6_field_validator_installation_witness :
    (("items", VKind.manager_validator)
      ∈ install_validators [("items", Ty.listOf (Ty.cls true))])
    ∧ (("avatar", VKind.file_validator)
      ∈ install_validators [("avatar", Ty.pyStr)]) :=
  ⟨C6_field_validator_installation.1 [("items", Ty.listOf (Ty.cls true))]
      "items" (Ty.listOf (Ty.cls true)) (by decide) (by decide) (by decide) (by decide),
   C6_field_validator_installation.2.1 [("avatar", Ty.pyStr)]
      "avatar" Ty.pyStr (by decide) (by decide) (by decide) (by decide)⟩

/-- C9: the resolver mapping built by the metaclass satisfies, at every
field name, the precedence the claim states: a `resolve_`-prefixed callable
of the class's own namespace wins (the last namespace assignment, matching
dict semantics), otherwise the first (earliest-listed) base contributing a
resolver for the name wins, otherwise there is none. -/
theorem C9_resolver_precedence (bases : List (Option Resolvers))
    (namespace_items : List (String × NsVal)) (fname : String) :
    compute_resolvers bases namespace_items fname
      = (match ns_resolver_entry namespace_items fname with
         | some v => some (Resolver.init v)
         | none => first_base_resolver bases fname) := by
  unfold compute_resolvers
  rw [ns_fold_lookup]
  cases ns_resolver_entry namespace_items fname with
  | some v => rfl
  | none =>
    rw [bases_fold_lookup]
    cases first_base_resolver bases fname <;> rfl

/-- C10: the collection-type test returns `False` for `str` itself and for
`str` reached through annotated or optional/union wrappers (so a `str` field
never gets the manager-coercion validator), and the installation loop skips
underscore-prefixed names and ClassVar-typed declarations entirely. -/
theorem C10_str_and_skips :
    (is_collection_type Ty.pyStr = false)
    ∧ (∀ m, is_collection_type (Ty.annotatedOf Ty.pyStr m) = false)
    ∧ (is_collection_type (Ty.unionOf Ty.pyStr Ty.pyNoneType) = false)
    ∧ (is_collection_type (Ty.unionOf Ty.pyStr Ty.pyInt) = false)
    ∧ (∀ (anns : List (String × Ty)) (n : String) (k : VKind),
        (n, k) ∈ install_validators anns →
        str_startsWith n "_" = false ∧
          ∃ t, (n, t) ∈ anns ∧ is_classvar_type t = false) := by
  refine ⟨rfl, fun _ => rfl, rfl, rfl, ?_⟩
  intro anns n k h
  rcases install_validators_sound anns [] (n, k) h with h2 | ⟨t, hmem, hu, hc, _⟩
  · exact absurd h2 (List.not_mem_nil _)
  · exact ⟨hu, t, hmem, hc⟩

/-- Witness for C10: the installation loop on a concrete namespace with an
underscore-prefixed field, a ClassVar field, a `str` field and a list field
installs only what the claim allows. -/
theorem C10_str_and_skips_witness :
    str_startsWith "items" "_" = false ∧
      ∃ t, ("items", t) ∈ [("items", Ty.listOf (Ty.cls true))]
        ∧ is_classvar_type t = false :=
  C10_str_and_skips.2.2.2.2 [("items", Ty.listOf (Ty.cls true))] "items"
    VKind.manager_validator (by decide)

/-! ## Part 5: root validation and JSON schema generation (ninja/schema.py 237-291) -/

/-- One invocation `_run_root_validator` makes of the wrap-mode validation
handler: either directly on the raw backing value, or on the value wrapped
in the `DjangoGetter` adapter together with the context. -/
inductive RootPass (V C : Type) where
  | direct (values : V)
  | adapter (values : V) (context : C)
deriving DecidableEq, Repr

/-- The slice of the pydantic `model_config` read by `_run_root_validator`
(schema.py 273-274): the `"extra"` entry and the `"validate_assignment"`
entry (defaulting to `False`). -/
structure PydModelConfig where
  extra : Option String
  validate_assignment : Bool

/-- Embedding of `Schema._run_root_validator` (schema.py 264-279).  The
handler is abstract; the first component of the result is the ordered trace
of handler invocations (`handler(values)` first when the config forbids
extra fields or validates on assignment, then always the adapter-wrapped
pass), and the second component is the validator's return value, the
handler's result on the adapter-wrapped value. -/
def _run_root_validator (cfg : PydModelConfig) (handler : RootPass V C → R)
    (values : V) (context : C) : List (RootPass V C) × R :=
  let forbids_extra := cfg.extra == some "forbid"
  let should_validate_assignment := cfg.validate_assignment
  let pre := if forbids_extra || should_validate_assignment
    then [RootPass.direct values] else []
  (pre ++ [RootPass.adapter values context],
   handler (RootPass.adapter values context))

/-- Model of the JSON values produced by schema generation.  `null` is the
Python `None`. -/
inductive Json where
  | str (s : String)
  | num (n : Int)
  | boolean (b : Bool)
  | null
  | arr (xs : List Json)
  | obj (fields : List (String × Json))

/-- Python `key in d` on a JSON object. -/
def Json.hasKey : Json → String → Bool
  | .obj fields, k => fields.any (fun p => p.1 == k)
  | _, _ => false

/-- Python `d[key] = v` on a JSON object: overwrite in place when the key
exists, append otherwise; no effect on non-objects (the source only assigns
into dict results). -/
def Json.setKey : Json → String → Json → Json
  | .obj fields, k, v =>
    if fields.any (fun p => p.1 == k)
    then .obj (fields.map (fun p => if p.1 == k then (k, v) else p))
    else .obj (fields ++ [(k, v)])
  | j, _, _ => j

/-- Embedding of `NinjaGenerateJsonSchema.default_schema` (schema.py
237-257).  `generate_inner` and `encode_default` are the inherited pydantic
operations, taken as parameters; `schema_inner` is `schema["schema"]`;
`schema_default` is the `"default"` entry of the core schema (`none` when
the key is absent, `some Json.null` when present and `None`).  A `default`
is computed only when present and non-`None`; a generated schema carrying
`"$ref"` is wrapped in a single-entry `allOf`; the default, when any, is
attached to the (possibly wrapped) result afterwards. -/
def default_schema (generate_inner : σ → Json) (encode_default : Json → Json)
    (schema_inner : σ) (schema_default : Option Json) : Json :=
  let json_schema := generate_inner schema_inner
  let dflt : Option Json :=
    match schema_default with
    | none => none
    | some Json.null => none
    | some d => some (encode_default d)
  let result :=
    if json_schema.hasKey "$ref"
    then Json.obj [("allOf", Json.arr [json_schema])]
    else json_schema
  match dflt with
  | some d => result.setKey "default" d
  | none => result

theorem Json.hasKey_setKey_obj (fields : List (String × Json)) (k : String) (v : Json) :
    ((Json.obj fields).setKey k v).hasKey k = true := by
  by_cases h : fields.any (fun p => p.1 == k) = true
  · simp only [Json.setKey, h, if_true, Json.hasKey]
    rcases List.any_eq_true.mp h with ⟨p, hp, hpk⟩
    exact List.any_eq_true.mpr
      ⟨(k, v), List.mem_map.mpr ⟨p, hp, by simp [hpk]⟩, by simp⟩
  · simp [Json.setKey, h, Json.hasKey]

/-! ## Claim theorems C7-C8 -/

/-- C7: when the model config forbids extra fields or enables
validate-on-assignment, root validation invokes the handler twice, first
directly on the raw backing value and then on the adapter-wrapped value;
otherwise only the single adapter-wrapped pass occurs; in both cases the
validator's result is the handler's result on the adapter-wrapped value. -/
theorem C7_root_validator_double_pass (cfg : PydModelConfig)
    (handler : RootPass V C → R) (values : V) (context : C) :
    ((cfg.extra = some "forbid" ∨ cfg.validate_assignment = true) →
      (_run_root_validator cfg handler values context).1
        = [RootPass.direct values, RootPass.adapter values context])
    ∧ (cfg.extra ≠ some "forbid" → cfg.validate_assignment = false →
      (_run_root_validator cfg handler values context).1
        = [RootPass.adapter values context])
    ∧ (_run_root_validator cfg handler values context).2
        = handler (RootPass.adapter values context) := by
  refine ⟨?_, ?_, rfl⟩
  · intro h
    rcases h with h | h <;> simp [_run_root_validator, h]
  · intro h1 h2
    have hb : (cfg.extra == some "forbid") = false := by
      simp only [beq_eq_false_iff_ne, ne_eq]
      exact h1
    simp [_run_root_validator, hb, h2]

/-- Witness for C7 on concrete configs over `Nat`. -/
theorem C7_root_validator_double_pass_witness :
    ((_run_root_validator ⟨some "forbid", false⟩ (fun _ => (0 : Nat)) (1 : Nat) (2 : Nat)).1
      = [RootPass.direct 1, RootPass.adapter 1 2])
    ∧ ((_run_root_validator ⟨none, false⟩ (fun _ => (0 : Nat)) (1 : Nat) (2 : Nat)).1
      = [RootPass.adapter 1 2]) :=
  ⟨(C7_root_validator_double_pass ⟨some "forbid", false⟩ (fun _ => 0) 1 2).1 (Or.inl rfl),
   (C7_root_validator_double_pass ⟨none, false⟩ (fun _ => 0) 1 2).2.1
     (fun h => Option.noConfusion h) rfl⟩

/-- C8: the custom JSON-schema generator emits a `default` key only for a
non-null declared default (a present-but-null default acts exactly like an
absent one and adds no key), and a generated inner schema carrying `$ref`
is wrapped in a single-entry `allOf` envelope before any default is
attached (so the default lands on the envelope, outside the reference). -/
theorem C8_default_schema_behavior (generate_inner : σ → Json)
    (encode_default : Json → Json) (schema_inner : σ) :
    (default_schema generate_inner encode_default schema_inner (some Json.null)
      = default_schema generate_inner encode_default schema_inner none)
    ∧ ((generate_inner schema_inner).hasKey "default" = false →
        (default_schema generate_inner encode_default schema_inner none).hasKey "default"
          = false)
    ∧ (∀ d, d ≠ Json.null →
        (default_schema generate_inner encode_default schema_inner (some d)
          = (if (generate_inner schema_inner).hasKey "$ref"
             then Json.obj [("allOf", Json.arr [generate_inner schema_inner])]
             else generate_inner schema_inner).setKey "default" (encode_default d))
        ∧ (∀ fields, generate_inner schema_inner = Json.obj fields →
            (default_schema generate_inner encode_default schema_inner (some d)).hasKey
              "default" = true))
    ∧ (∀ r, generate_inner schema_inner = Json.obj [("$ref", r)] →
        (default_schema generate_inner encode_default schema_inner none
          = Json.obj [("allOf", Json.arr [Json.obj [("$ref", r)]])])
        ∧ (∀ d, d ≠ Json.null →
            default_schema generate_inner encode_default schema_inner (some d)
              = Json.obj [("allOf", Json.arr [Json.obj [("$ref", r)]]),
                  ("default", encode_default d)])) := by
  refine ⟨rfl, ?_, ?_, ?_⟩
  · intro h
    have e1 : default_schema generate_inner encode_default schema_inner none
        = (if (generate_inner schema_inner).hasKey "$ref"
           then Json.obj [("allOf", Json.arr [generate_inner schema_inner])]
           else generate_inner schema_inner) := rfl
    by_cases href : (generate_inner schema_inner).hasKey "$ref" = true
    · rw [e1, if_pos href]; rfl
    · rw [e1, if_neg href]; exact h
  · intro d hd
    have heq : default_schema generate_inner encode_default schema_inner (some d)
        = (if (generate_inner schema_inner).hasKey "$ref"
           then Json.obj [("allOf", Json.arr [generate_inner schema_inner])]
           else generate_inner schema_inner).setKey "default" (encode_default d) := by
      cases d <;> first | rfl | exact absurd rfl hd
    refine ⟨heq, ?_⟩
    intro fields hf
    rw [heq]
    by_cases href : (generate_inner schema_inner).hasKey "$ref" = true
    · rw [if_pos href]
      exact Json.hasKey_setKey_obj _ _ _
    · rw [if_neg href, hf]
      exact Json.hasKey_setKey_obj _ _ _
  · intro r hr
    have href : (generate_inner schema_inner).hasKey "$ref" = true := by
      rw [hr]; rfl
    constructor
    · have e1 : default_schema generate_inner encode_default schema_inner none
          = (if (generate_inner schema_inner).hasKey "$ref"
             then Json.obj [("allOf", Json.arr [generate_inner schema_inner])]
             else generate_inner schema_inner) := rfl
      rw [e1, if_pos href, hr]
    · intro d hd
      have heq : default_schema generate_inner encode_default schema_inner (some d)
          = (if (generate_inner schema_inner).hasKey "$ref"
             then Json.obj [("allOf", Json.arr [generate_inner schema_inner])]
             else generate_inner schema_inner).setKey "default" (encode_default d) := by
        cases d <;> first | rfl | exact absurd rfl hd
      rw [heq, if_pos href, hr]
      rfl

/-- Witness for C8 on a concrete bare-`$ref` inner schema. -/
theorem C8_default_schema_behavior_witness :
    (default_schema (fun _ : Nat => Json.obj [("$ref", Json.str "#/x")]) id 0 none
      = Json.obj [("allOf", Json.arr [Json.obj [("$ref", Json.str "#/x")]])])
    ∧ (default_schema (fun _ : Nat => Json.obj [("$ref", Json.str "#/x")]) id 0
        (some (Json.num 3))
      = Json.obj [("allOf", Json.arr [Json.obj [("$ref", Json.str "#/x")]]),
          ("default", Json.num 3)]) :=
  have h := (C8_default_schema_behavior
    (fun _ : Nat => Json.obj [("$ref", Json.str "#/x")]) id 0).2.2.2
    (Json.str "#/x") rfl
  ⟨h.1, h.2 (Json.num 3) (fun hx => Json.noConfusion hx)⟩
